import Mathlib

set_option autoImplicit false

namespace LightSocks5

/-! # Shallow embedding of light-socks5 (ganted)

Definitions are transcribed from the Go sources:
* `src/src/main.go` — the ACL rule set and the RADIUS-backed credential
  validator with its positive cache (`RadiusCredentials.Valid`,
  `RadiusCredentials.updateCache`, `RadiusCache.isExpired`);
* `src/src/ganted2radius.go` — the access-log parser (`parseLogFile`) and
  the accounting emitter (`sendAccountingData`);
* `src/unnamed/part_001` — the archival pipeline (`compressFile`,
  `findLogs`, `archiveLogs`);
* `src/unnamed/part_003` — the forked socks5 package (`ConnWrapper` and
  `Server.ServeConn`).

Time is an abstract integer clock (one tick = the granularity the code
observes); the RADIUS wire exchange, zstd compression and the operating
system are external collaborators and enter as explicit parameters or
outcome values.  Go `int`/`int64` counters are modelled as `Int`: the
byte counters of one TCP connection and one log file cannot approach
2^63, so 64-bit wraparound is unreachable there; the one place a Go
integer conversion can realistically truncate — the 32-bit
`rfc2866.AcctOutputOctets` attribute — is modelled with its modulus.
-/

/-! ## RADIUS auth cache and credential validator (src/src/main.go 50-102) -/

/-- Transcription of `RadiusCacheItem` (main.go 64-67): the positive-cache
entry stored per username. -/
structure RadiusCacheItem where
  Password : String
  LastUsed : Int
  deriving Repr, DecidableEq

/-- The `sync.Map` of `RadiusCache` (main.go 58-62), modelled as an
association list with at most one binding per username, together with the
retention duration.  The GC interval plays no role in the claims. -/
structure RadiusCache where
  Retention : Int
  Map : List (String × RadiusCacheItem)
  deriving Repr, DecidableEq

/-- `sync.Map.Load`: the binding for a username, if any. -/
def RadiusCache.load (c : RadiusCache) (u : String) : Option RadiusCacheItem :=
  (c.Map.find? (fun p => p.1 == u)).map Prod.snd

/-- Transcription of `RadiusCache.isExpired` (main.go 69-71):
`time.Since(item.LastUsed) >= c.Retention`. -/
def RadiusCache.isExpired (c : RadiusCache) (now : Int) (item : RadiusCacheItem) : Bool :=
  decide (c.Retention ≤ now - item.LastUsed)

/-- `sync.Map.Store`: replace the existing binding for the key, or add one. -/
def storeEntry (m : List (String × RadiusCacheItem)) (u : String) (item : RadiusCacheItem) :
    List (String × RadiusCacheItem) :=
  match m with
  | [] => [(u, item)]
  | (k, v) :: rest =>
    if k == u then (u, item) :: rest else (k, v) :: storeEntry rest u item

/-- Transcription of `RadiusCredentials.updateCache` (main.go 73-78): store
the pair with `LastUsed = time.Now()`. -/
def RadiusCredentials.updateCache (c : RadiusCache) (now : Int) (u p : String) : RadiusCache :=
  { c with Map := storeEntry c.Map u ⟨p, now⟩ }

/-- Outcome of the `radius.Exchange` call inside `Valid`: a transport
error, an Access-Accept response, or any other response code (Reject). -/
inductive RadiusOutcome where
  | accept
  | reject
  | error
  deriving Repr, DecidableEq

/-- Observable result of one `Valid` call: the boolean returned, the cache
state afterwards, and whether the RADIUS server was contacted. -/
structure ValidResult where
  ok : Bool
  cache : RadiusCache
  radiusContacted : Bool
  deriving Repr, DecidableEq

/-- Transcription of `RadiusCredentials.Valid` (main.go 81-102).  The body
first consults the cache; on a hit with matching password and unexpired
entry it refreshes the entry and returns true without touching RADIUS.
Otherwise it issues an Access-Request whose outcome is the `outcome`
parameter: on Accept it upserts and returns true, on error or any
non-Accept code it returns false. -/
def RadiusCredentials.Valid (c : RadiusCache) (now : Int) (u p : String)
    (outcome : RadiusOutcome) : ValidResult :=
  let fallback : ValidResult :=
    match outcome with
    | .error => ⟨false, c, true⟩
    | .accept => ⟨true, RadiusCredentials.updateCache c now u p, true⟩
    | .reject => ⟨false, c, true⟩
  match c.load u with
  | some item =>
    if item.Password == p && !(c.isExpired now item) then
      ⟨true, RadiusCredentials.updateCache c now u p, false⟩
    else
      fallback
  | none => fallback

/-- The exact cache-hit condition of `Valid` (main.go 82-87). -/
def cacheHit (c : RadiusCache) (now : Int) (u p : String) : Bool :=
  match c.load u with
  | some item => item.Password == p && !(c.isExpired now item)
  | none => false

/-! ## Byte-counting connection wrapper (src/unnamed/part_003 76-97) -/

/-- Transcription of `ConnWrapper` (part_003 77-81): the embedded
`net.Conn` (kept as an opaque handle) and the two int64 counters. -/
structure ConnWrapper where
  Conn : Nat
  ReadBytes : Int
  WriteBytes : Int
  deriving Repr, DecidableEq

/-- Transcription of `ConnWrapper.Read` (part_003 84-89): the underlying
`c.Conn.Read` returned `n` bytes together with `ioError`; the wrapper adds
`n` to `ReadBytes` unconditionally and passes both results through. -/
def ConnWrapper.read (c : ConnWrapper) (n : Nat) (ioError : Bool) :
    ConnWrapper × Nat × Bool :=
  ({ c with ReadBytes := c.ReadBytes + n }, n, ioError)

/-- Transcription of `ConnWrapper.Write` (part_003 92-97): the underlying
`c.Conn.Write` returned `n` bytes together with `ioError`; the wrapper adds
`n` to `WriteBytes` unconditionally and passes both results through. -/
def ConnWrapper.write (c : ConnWrapper) (n : Nat) (ioError : Bool) :
    ConnWrapper × Nat × Bool :=
  ({ c with WriteBytes := c.WriteBytes + n }, n, ioError)

/-- One I/O call observed on the wrapper: how many bytes the underlying
connection transferred and whether it also reported an error. -/
inductive ConnEvent where
  | read (n : Nat) (ioError : Bool)
  | write (n : Nat) (ioError : Bool)
  deriving Repr, DecidableEq

/-- Effect of one call on the wrapper state. -/
def ConnWrapper.step (c : ConnWrapper) : ConnEvent → ConnWrapper
  | .read n e => (c.read n e).1
  | .write n e => (c.write n e).1

/-- Effect of a sequence of calls on the wrapper state. -/
def ConnWrapper.run (c : ConnWrapper) : List ConnEvent → ConnWrapper
  | [] => c
  | ev :: evs => (c.step ev).run evs

/-! ## One completed SOCKS5 session (src/unnamed/part_003 167-232) -/

/-- Byte flows of one completed session, as `Server.ServeConn` drives them
over the client connection. -/
structure SessionTrace where
  authReadBytes : Nat
  requestReadBytes : Nat
  replyWriteBytes : Nat
  relayClientToUpstream : Nat
  relayUpstreamToClient : Nat
  deriving Repr, DecidableEq

/-- Modelled from the spec: the bodies of `authenticate`, `NewRequest` and
`handleRequest` live in files of the in-repo go-socks5 fork that are not
under src/ (only `socks5.go` is); their byte flows follow spec 4.E/4.F.
The event skeleton itself is read off `ServeConn` (part_003 167-232):
`bufConn` is a `bufio.Reader` over `wrappedConn`, so the version byte
(line 180-181), the sub-negotiation bytes read by `authenticate(conn,
bufConn)` (line 194) and the request bytes read by `NewRequest(bufConn)`
(line 201) all pass through `ConnWrapper.Read`; `handleRequest(request,
wrappedConn)` (line 214) writes the SOCKS reply and relays both directions
through the wrapper.  `authenticate`'s replies go to the unwrapped `conn`
and are not counted. -/
def serveConnEvents (t : SessionTrace) : List ConnEvent :=
  [ .read 1 false,
    .read t.authReadBytes false,
    .read t.requestReadBytes false,
    .write t.replyWriteBytes false,
    .read t.relayClientToUpstream false,
    .write t.relayUpstreamToClient false ]

/-- The access record printed at the end of `ServeConn` (part_003 222-229):
`remoteAddr username rfc3339-time destination ReadBytes WriteBytes`. -/
structure AccessRecord where
  remote : String
  username : String
  timeString : String
  destination : String
  readBytesField : Int
  writeBytesField : Int
  deriving Repr, DecidableEq

/-- The record `ServeConn` emits for one completed session: the wrapper
starts at zero counters (`&ConnWrapper\x7bConn: conn\x7d`, part_003 171) and the
last two fields are its counters after the session. -/
def serveConnRecord (remote username timeString destination : String)
    (t : SessionTrace) : AccessRecord :=
  let w := ConnWrapper.run ⟨0, 0, 0⟩ (serveConnEvents t)
  { remote := remote
    username := username
    timeString := timeString
    destination := destination
    readBytesField := w.ReadBytes
    writeBytesField := w.WriteBytes }

/-! ## ACL (src/src/main.go 21-35) -/

/-- An IP address, v4 or v6, as the numeric value of its bits. -/
inductive IPAddr where
  | v4 (a : Nat)
  | v6 (a : Nat)
  deriving Repr, DecidableEq

/-- One CIDR entry of the allow list: family, network address, mask length. -/
structure IPNet where
  isV6 : Bool
  addr : Nat
  maskLen : Nat
  deriving Repr, DecidableEq

/-- Modelled from the spec: `net.IPNet.Contains` (standard library, not in
src/) — an address is inside the network iff it has the same family and
agrees with the network address on the first `maskLen` bits. -/
def IPNet.contains (n : IPNet) (ip : IPAddr) : Bool :=
  match ip with
  | .v4 a => !n.isV6 && decide (a / 2 ^ (32 - n.maskLen) = n.addr / 2 ^ (32 - n.maskLen))
  | .v6 a => n.isV6 && decide (a / 2 ^ (128 - n.maskLen) = n.addr / 2 ^ (128 - n.maskLen))

/-- Modelled from the spec: `netallow.BasicNet.Permitted` (external
library) — an address is permitted iff at least one network of the set
contains it. -/
def BasicNet.Permitted (nets : List IPNet) (ip : IPAddr) : Bool :=
  nets.any (fun n => n.contains ip)

/-- The SOCKS5 request command. -/
inductive SocksCommand where
  | connect
  | bind
  | associate
  deriving Repr, DecidableEq

/-- The part of `socks5.Request` that `ACL.Allow` inspects: the command and
the (already resolved) destination IP. -/
structure Request where
  Command : SocksCommand
  DestIP : IPAddr
  deriving Repr, DecidableEq

/-- Transcription of `ACL.Allow` (main.go 26-35): refuse non-CONNECT
commands, then refuse destinations not permitted by the allow list,
otherwise accept. -/
def ACL.Allow (acl : List IPNet) (request : Request) : Bool :=
  if !(request.Command == SocksCommand.connect) then false
  else if !(BasicNet.Permitted acl request.DestIP) then false
  else true

/-! ## Access-log parsing (src/src/ganted2radius.go 80-115) -/

/-- The whitespace class of `strings.Fields` (`unicode.IsSpace`),
restricted to the code points that occur in Latin-1 text. -/
def isSpaceChar (ch : Char) : Bool :=
  ch == ' ' || ch == '\t' || ch == '\n' || ch == '\x0b' || ch == '\x0c' ||
    ch == '\r' || ch == '\x85' || ch == '\xa0'

/-- `strings.Fields`: split around runs of whitespace; no empty fields. -/
def goFields (s : String) : List String :=
  (s.split (fun ch => isSpaceChar ch)).filter (fun t => !t.isEmpty)

/-- `strconv.Atoi` on a 64-bit platform: optional sign, a nonempty run of
decimal digits, value within the int64 range; anything else is an error. -/
def goAtoi (s : String) : Option Int :=
  let cs := s.toList
  let signDigits : Int × List Char :=
    match cs with
    | '+' :: rest => (1, rest)
    | '-' :: rest => (-1, rest)
    | _ => (1, cs)
  match signDigits.2 with
  | [] => none
  | _ :: _ =>
    if signDigits.2.all Char.isDigit then
      let v : Int := signDigits.1 * (signDigits.2.foldl (fun acc ch => acc * 10 + (ch.toNat - 48)) 0 : Nat)
      if -(2 ^ 63) ≤ v ∧ v < 2 ^ 63 then some v else none
    else none

/-- The `map[string]int` aggregate, as an insertion-ordered association
list with a default value of 0. -/
def Stats := List (String × Int)

/-- `stats[identity]` with Go's zero default. -/
def Stats.get (st : Stats) (u : String) : Int :=
  match st with
  | [] => 0
  | (k, v) :: rest => if k == u then v else Stats.get rest u

/-- `stats[identity] += totalBytes`: bump an existing binding or create one. -/
def Stats.add (st : Stats) (u : String) (v : Int) : Stats :=
  match st with
  | [] => [(u, v)]
  | (k, w) :: rest =>
    if k == u then (k, w + v) :: rest else (k, w) :: Stats.add rest u v

/-- One iteration of the scanner loop of `parseLogFile` (ganted2radius.go
90-112): split the line into fields, skip it unless there are exactly 8,
parse fields 6 and 7 as integers, skip the line if either parse fails,
otherwise add their sum to the aggregate of field 3. -/
def parseLogLine (st : Stats) (line : String) : Stats :=
  match goFields line with
  | [_, _, _, identity, _, _, f6, f7] =>
    match goAtoi f6, goAtoi f7 with
    | some bytesIn, some bytesOut => st.add identity (bytesIn + bytesOut)
    | _, _ => st
  | _ => st

/-- Transcription of `parseLogFile` (ganted2radius.go 80-115) on the list
of lines of the rotated file. -/
def parseLogFile (lines : List String) : Stats :=
  lines.foldl parseLogLine []

/-- Written from the spec side of C5: what one line contributes to the
total of username `u` — the sum of fields 6 and 7 when the line has
exactly 8 whitespace-separated fields, both parse as integers and field 3
is `u`; nothing otherwise. -/
def specLineBytes (u : String) (line : String) : Int :=
  match goFields line with
  | [_, _, _, identity, _, _, f6, f7] =>
    if identity = u then
      match goAtoi f6, goAtoi f7 with
      | some bytesIn, some bytesOut => bytesIn + bytesOut
      | _, _ => 0
    else 0
  | _ => 0

/-! ## Archival pipeline (src/unnamed/part_001 27-143) -/

/-- The log directory, as an association list of file name to content.
Directory entries are unique; theorems that count files assume `Nodup`
keys. -/
def FSDir := List (String × String)

/-- `os.Stat` / `os.Open`: content of the named file, if it exists. -/
def FSDir.get : FSDir → String → Option String
  | [], _ => none
  | (k, v) :: rest, name => if k == name then some v else FSDir.get rest name

/-- `os.Create` plus writing `content`: truncate an existing file or create
a new one. -/
def FSDir.set (fs : FSDir) (name : String) (content : String) : FSDir :=
  match fs with
  | [] => [(name, content)]
  | (k, v) :: rest =>
    if k == name then (name, content) :: rest else (k, v) :: FSDir.set rest name content

/-- `os.Remove`: drop the entry bound to the name. -/
def FSDir.remove : FSDir → String → FSDir
  | [], _ => []
  | (k, v) :: rest, name =>
    if k == name then FSDir.remove rest name else (k, v) :: FSDir.remove rest name

/-- The file names of the directory, in directory order. -/
def FSDir.names (fs : FSDir) : List String :=
  fs.map Prod.fst

/-- The regular expression of `archiveLogs` (part_001 85),
`access-` followed by 14 digits followed by `.log`, matched in full. -/
def isRotatedLogName (s : String) : Bool :=
  let cs := s.toList
  cs.length == 25 &&
    cs.take 7 == ("access-".toList) &&
    ((cs.drop 7).take 14).all Char.isDigit &&
    cs.drop 21 == (".log".toList)

/-- Transcription of `findLogs` (part_001 70-82): the files of the
directory whose name matches the rotation pattern. -/
def findLogs (fs : FSDir) : List String :=
  fs.names.filter isRotatedLogName

/-- Lexicographic comparison of character lists by code point, the order
`sort.Strings` sorts by (byte-wise on the ASCII file names at hand). -/
def charListLe : List Char → List Char → Bool
  | [], _ => true
  | _ :: _, [] => false
  | a :: as, b :: bs =>
    if a.toNat < b.toNat then true
    else if b.toNat < a.toNat then false
    else charListLe as bs

/-- Lexicographic order on strings. -/
def strLe (a b : String) : Bool := charListLe a.toList b.toList

/-- `sort.Strings` (part_001 91): sort into nondecreasing lexicographic
order. -/
def sortStrings (l : List String) : List String :=
  List.insertionSort (fun a b => strLe a b = true) l

/-- `maxBackup` as wired at the call site `archiveLogs(logDir, 24)`. -/
def maxBackups : Nat := 24

/-- Transcription of `compressFile` (part_001 27-68), with the zstd
primitive (an external library) abstracted as `zstd`: open the source,
fail if the `.zst` target already exists, otherwise write the compressed
content and remove the source.  The second component is `some message`
when the Go function returns a non-nil error. -/
def compressFile (zstd : String → String) (fs : FSDir) (name : String) :
    FSDir × Option String :=
  match fs.get name with
  | none => (fs, some ("open " ++ name ++ ": no such file"))
  | some content =>
    let zname := name ++ ".zst"
    if (fs.get zname).isSome then
      (fs, some ("file " ++ zname ++ " exists"))
    else
      ((FSDir.set fs zname (zstd content)).remove name, none)

/-- The archive file name `archived-access-<date>.log` (part_001 93-95). -/
def archiveName (date : String) : String :=
  "archived-access-" ++ date ++ ".log"

/-- Transcription of `archiveLogs` (part_001 84-143).  With fewer than
`maxBackup` rotated files it does nothing.  Otherwise it sorts the names,
fails if the dated `.zst` target exists, creates the intermediate archive,
concatenates the rotated files into it in sorted order, compresses it, and
then runs the cleanup block of lines 128-140: `os.Stat(archiveFilePath)`
either finds the file (first branch: remove it) or reports not-exist, in
which case `err` is non-nil and the Go code reaches the final `else`,
returning the `Unknown err when clear original log file` error — the
`err == nil` branch that would delete the source files is unreachable. -/
def archiveLogs (zstd : String → String) (fs : FSDir) (date : String)
    (maxBackup : Nat) : FSDir × Option String :=
  let logFiles := findLogs fs
  if maxBackup ≤ logFiles.length then
    let sorted := sortStrings logFiles
    let archiveFileName := archiveName date
    if (fs.get (archiveFileName ++ ".zst")).isSome then
      (fs, some ("file " ++ archiveFileName ++ ".zst exists"))
    else
      let fs1 := FSDir.set fs archiveFileName ""
      let content := String.join (sorted.map (fun n => (fs1.get n).getD ""))
      let fs2 := FSDir.set fs1 archiveFileName content
      match compressFile zstd fs2 archiveFileName with
      | (fs3, some e) => (fs3, some e)
      | (fs3, none) =>
        if (fs3.get archiveFileName).isSome then
          (fs3.remove archiveFileName, none)
        else
          (fs3, some "Unknown err when clear original log file")
  else
    (fs, none)

/-! ## Accounting emitter (src/src/ganted2radius.go 117-158) -/

/-- `Acct-Status-Type` of an Accounting-Request. -/
inductive AcctStatusType where
  | start
  | stop
  deriving Repr, DecidableEq

/-- The attributes `sendAccountingData` sets on an Accounting-Request
packet.  `outputOctets` is the 32-bit `rfc2866.AcctOutputOctets`
attribute, absent from the Start packet. -/
structure AccountingPacket where
  username : String
  nasIdentifier : String
  sessionID : String
  statusType : AcctStatusType
  outputOctets : Option Nat
  deriving Repr, DecidableEq

/-- Go's conversion `rfc2866.AcctOutputOctets(bytes)` of an `int` to the
uint32 attribute: the low 32 bits. -/
def uint32OfInt (b : Int) : Nat :=
  (b % (2 ^ 32 : Int)).toNat

/-- Outcome of one `radius.Exchange` for an accounting packet: an
Accounting-Response, some other response code, or a transport error. -/
inductive ExchangeOutcome where
  | response
  | otherCode
  | error
  deriving Repr, DecidableEq

/-- Transcription of `sendAccountingData` (ganted2radius.go 117-158):
`sessionID` is the decimal unix time computed once (line 119); the Start
packet carries username, NAS identifier, session id, status Start; if its
exchange does not yield an Accounting-Response the function stops with an
error; otherwise the Stop packet additionally carries
`AcctOutputOctets(bytes)`; the result lists the packets sent and whether
the function returned nil. -/
def sendAccountingData (nasIdentifier identity : String) (bytes : Int)
    (nowUnix : Int) (startOutcome stopOutcome : ExchangeOutcome) :
    List AccountingPacket × Bool :=
  let sessionID := toString nowUnix
  let startPacket : AccountingPacket :=
    { username := identity
      nasIdentifier := nasIdentifier
      sessionID := sessionID
      statusType := .start
      outputOctets := none }
  match startOutcome with
  | .error => ([startPacket], false)
  | .otherCode => ([startPacket], false)
  | .response =>
    let stopPacket : AccountingPacket :=
      { username := identity
        nasIdentifier := nasIdentifier
        sessionID := sessionID
        statusType := .stop
        outputOctets := some (uint32OfInt bytes) }
    match stopOutcome with
    | .error => ([startPacket, stopPacket], false)
    | .otherCode => ([startPacket, stopPacket], false)
    | .response => ([startPacket, stopPacket], true)

/-! ## Concrete directory states used by closed theorems -/

/-- A log directory holding exactly `maxBackups` rotated files, one letter
of content each, and no archive. -/
def fsFull : FSDir :=
  [ ("access-20240101000000.log", "a"), ("access-20240101000001.log", "b"),
    ("access-20240101000002.log", "c"), ("access-20240101000003.log", "d"),
    ("access-20240101000004.log", "e"), ("access-20240101000005.log", "f"),
    ("access-20240101000006.log", "g"), ("access-20240101000007.log", "h"),
    ("access-20240101000008.log", "i"), ("access-20240101000009.log", "j"),
    ("access-20240101000010.log", "k"), ("access-20240101000011.log", "l"),
    ("access-20240101000012.log", "m"), ("access-20240101000013.log", "n"),
    ("access-20240101000014.log", "o"), ("access-20240101000015.log", "p"),
    ("access-20240101000016.log", "q"), ("access-20240101000017.log", "r"),
    ("access-20240101000018.log", "s"), ("access-20240101000019.log", "t"),
    ("access-20240101000020.log", "u"), ("access-20240101000021.log", "v"),
    ("access-20240101000022.log", "w"), ("access-20240101000023.log", "x") ]

/-- A log directory holding only an existing dated archive and no rotated
files. -/
def fsOnlyArchive : FSDir :=
  [("archived-access-20240101.log.zst", "x")]

/-- `fsFull` with the dated archive target already present. -/
def fsFullWithArchive : FSDir :=
  ("archived-access-20240101.log.zst", "x") :: fsFull

/-- The Start packet that the C9 witness expects for alice with 380 bytes
at unix time 1700000000. -/
def witnessStartPacket : AccountingPacket :=
  { username := "alice", nasIdentifier := "ganted", sessionID := "1700000000",
    statusType := AcctStatusType.start, outputOctets := none }

/-- The matching Stop packet for the C9 witness. -/
def witnessStopPacket : AccountingPacket :=
  { username := "alice", nasIdentifier := "ganted", sessionID := "1700000000",
    statusType := AcctStatusType.stop, outputOctets := some 380 }

/-! ## Helper lemmas -/

theorem find_storeEntry (m : List (String × RadiusCacheItem)) (u : String)
    (item : RadiusCacheItem) :
    ((storeEntry m u item).find? (fun p => p.1 == u)).map Prod.snd = some item := by
  induction m with
  | nil => simp [storeEntry]
  | cons kv rest ih =>
    obtain ⟨k, v⟩ := kv
    by_cases hk : k = u
    · subst hk
      simp [storeEntry]

    · simp [storeEntry, hk, List.find?, ih]

theorem load_updateCache (c : RadiusCache) (now : Int) (u p : String) :
    (RadiusCredentials.updateCache c now u p).load u = some ⟨p, now⟩ := by
  simp [RadiusCredentials.updateCache, RadiusCache.load, find_storeEntry]

theorem run_counters_mono (evs : List ConnEvent) (c : ConnWrapper) :
    c.ReadBytes ≤ (c.run evs).ReadBytes ∧ c.WriteBytes ≤ (c.run evs).WriteBytes := by
  induction evs generalizing c with
  | nil => simp [ConnWrapper.run]
  | cons ev evs ih =>
    have h := ih (c.step ev)
    have hstep : c.ReadBytes ≤ (c.step ev).ReadBytes ∧ c.WriteBytes ≤ (c.step ev).WriteBytes := by
      cases ev <;>
        simp [ConnWrapper.step, ConnWrapper.read, ConnWrapper.write]
    exact ⟨le_trans hstep.1 h.1, le_trans hstep.2 h.2⟩

theorem charListLe_total : ∀ x y : List Char, charListLe x y = true ∨ charListLe y x = true
  | [], _ => Or.inl rfl
  | _ :: _, [] => Or.inr rfl
  | a :: as, b :: bs => by
    rcases Nat.lt_trichotomy a.toNat b.toNat with h1 | h1 | h1
    · left; simp [charListLe, h1]
    · rcases charListLe_total as bs with h | h
      · left
        simp only [charListLe]
        rw [if_neg (by omega), if_neg (by omega)]
        exact h
      · right
        simp only [charListLe]
        rw [if_neg (by omega), if_neg (by omega)]
        exact h
    · right; simp [charListLe, h1]

theorem charListLe_trans : ∀ x y z : List Char,
    charListLe x y = true → charListLe y z = true → charListLe x z = true
  | [], _, _, _, _ => rfl
  | _ :: _, [], _, hxy, _ => by simp [charListLe] at hxy
  | _ :: _, _ :: _, [], _, hyz => by simp [charListLe] at hyz
  | a :: as, b :: bs, c :: cs, hxy, hyz => by
    simp only [charListLe] at hxy hyz ⊢
    rcases Nat.lt_trichotomy a.toNat b.toNat with h1 | h1 | h1
    · rcases Nat.lt_trichotomy b.toNat c.toNat with h3 | h3 | h3
      · rw [if_pos (by omega)]
      · rw [if_pos (by omega)]
      · rw [if_neg (by omega), if_pos h3] at hyz
        simp at hyz
    · rcases Nat.lt_trichotomy b.toNat c.toNat with h3 | h3 | h3
      · rw [if_pos (by omega)]
      · rw [if_neg (by omega), if_neg (by omega)] at hxy
        rw [if_neg (by omega), if_neg (by omega)] at hyz
        rw [if_neg (by omega), if_neg (by omega)]
        exact charListLe_trans as bs cs hxy hyz
      · rw [if_neg (by omega), if_pos h3] at hyz
        simp at hyz
    · rw [if_neg (by omega), if_pos h1] at hxy
      simp at hxy

instance : IsTotal String (fun a b => strLe a b = true) :=
  ⟨fun a b => charListLe_total a.toList b.toList⟩

instance : IsTrans String (fun a b => strLe a b = true) :=
  ⟨fun a b c => charListLe_trans a.toList b.toList c.toList⟩

theorem fsdir_get_set_same (fs : FSDir) (a c : String) :
    (FSDir.set fs a c).get a = some c := by
  induction fs with
  | nil => simp [FSDir.set, FSDir.get]
  | cons kv rest ih =>
    obtain ⟨k, v⟩ := kv
    by_cases hk : k = a <;> simp [FSDir.set, FSDir.get, hk, ih]

theorem fsdir_get_set_ne (fs : FSDir) (a b c : String) (h : ¬ a = b) :
    (FSDir.set fs a c).get b = fs.get b := by
  induction fs with
  | nil => simp [FSDir.set, FSDir.get, h]
  | cons kv rest ih =>
    obtain ⟨k, v⟩ := kv
    by_cases hk : k = a
    · subst hk
      simp [FSDir.set, FSDir.get, h]
    · simp [FSDir.set, FSDir.get, hk, ih]

theorem fsdir_get_remove_same (fs : FSDir) (a : String) :
    (FSDir.remove fs a).get a = none := by
  induction fs with
  | nil => simp [FSDir.remove, FSDir.get]
  | cons kv rest ih =>
    obtain ⟨k, v⟩ := kv
    by_cases hk : k = a <;> simp [FSDir.remove, FSDir.get, hk, ih]

theorem fsdir_get_remove_ne (fs : FSDir) (a b : String) (h : ¬ a = b) :
    (FSDir.remove fs a).get b = fs.get b := by
  induction fs with
  | nil => simp [FSDir.remove, FSDir.get]
  | cons kv rest ih =>
    obtain ⟨k, v⟩ := kv
    by_cases hk : k = a
    · subst hk
      simp [FSDir.remove, FSDir.get, h, ih]
    · simp [FSDir.remove, FSDir.get, hk, ih]

theorem archiveName_ne_zst (date : String) :
    ¬ archiveName date = archiveName date ++ ".zst" := by
  intro h
  have hlen := congrArg String.length h
  rw [String.length_append] at hlen
  have h4 : (".zst" : String).length = 4 := rfl
  rw [h4] at hlen
  omega

theorem take7_archiveName (date : String) :
    (archiveName date).toList.take 7 = "archive".toList := by
  have h1 : (archiveName date).toList
      = "archived-access-".toList ++ (date.toList ++ ".log".toList) := by
    simp [archiveName, String.toList, String.data_append]
  rw [h1, List.take_append_of_le_length (by decide)]
  decide

theorem isRotatedLogName_archiveName (date : String) :
    isRotatedLogName (archiveName date) = false := by
  have hfalse : (((archiveName date).toList.take 7 : List Char) == "access-".toList) = false := by
    rw [take7_archiveName]
    decide
  simp only [isRotatedLogName, hfalse]
  simp

/-! ## Claim theorems -/

/-- Claim C2: `Valid` follows the three-step validator algorithm.  If the
cache holds an entry for the username whose stored password equals the
presented one and whose age `now - LastUsed` is strictly below the
retention, the entry is refreshed to `now` and true is returned without
contacting RADIUS; otherwise the RADIUS server is contacted and, on
Accept, the pair is upserted with `LastUsed = now` and true is returned. -/
theorem valid_follows_validator_algorithm (c : RadiusCache) (now : Int) (u p : String)
    (outcome : RadiusOutcome) :
    (∀ item, c.load u = some item → item.Password = p →
      now - item.LastUsed < c.Retention →
      (RadiusCredentials.Valid c now u p outcome).ok = true
      ∧ (RadiusCredentials.Valid c now u p outcome).radiusContacted = false
      ∧ (RadiusCredentials.Valid c now u p outcome).cache.load u = some ⟨p, now⟩)
  ∧ (cacheHit c now u p = false →
      (RadiusCredentials.Valid c now u p outcome).radiusContacted = true
      ∧ (outcome = RadiusOutcome.accept →
        (RadiusCredentials.Valid c now u p outcome).ok = true
        ∧ (RadiusCredentials.Valid c now u p outcome).cache.load u = some ⟨p, now⟩)) := by
  constructor
  · intro item hload hpw htime
    have h2 : c.isExpired now item = false := by
      simp only [RadiusCache.isExpired, decide_eq_false_iff_not]
      omega
    simp [RadiusCredentials.Valid, hload, hpw, h2, load_updateCache]
  · intro hmiss
    cases hc : c.load u with
    | none =>
      cases outcome <;> simp [RadiusCredentials.Valid, hc, load_updateCache]
    | some item =>
      have hcond : (item.Password == p && !(c.isExpired now item)) = false := by
        have := hmiss
        simpa [cacheHit, hc] using this
      cases outcome <;> simp [RadiusCredentials.Valid, hc, hcond, load_updateCache]

/-- Witness for C2: a concrete fresh cache hit for alice is answered from
the cache, refreshed to the current time, with RADIUS (which would reject)
never consulted. -/
theorem valid_follows_validator_algorithm_witness :
    (RadiusCredentials.Valid ⟨10, [("alice", ⟨"pw", 0⟩)]⟩ 5 "alice" "pw" RadiusOutcome.reject).ok = true
    ∧ (RadiusCredentials.Valid ⟨10, [("alice", ⟨"pw", 0⟩)]⟩ 5 "alice" "pw" RadiusOutcome.reject).radiusContacted = false
    ∧ (RadiusCredentials.Valid ⟨10, [("alice", ⟨"pw", 0⟩)]⟩ 5 "alice" "pw" RadiusOutcome.reject).cache.load "alice"
        = some ⟨"pw", 5⟩ :=
  (valid_follows_validator_algorithm ⟨10, [("alice", ⟨"pw", 0⟩)]⟩ 5 "alice" "pw"
    RadiusOutcome.reject).1 ⟨"pw", 0⟩ (by decide) rfl (by decide)

/-- Claim C3: when the RADIUS exchange inside `Valid` ends in a Reject or
a transport error, `Valid` returns false and the cache is left exactly as
it was, for every prior cache state. -/
theorem valid_reject_leaves_cache_unchanged (c : RadiusCache) (now : Int) (u p : String)
    (outcome : RadiusOutcome) (hmiss : cacheHit c now u p = false)
    (hout : outcome = RadiusOutcome.reject ∨ outcome = RadiusOutcome.error) :
    (RadiusCredentials.Valid c now u p outcome).ok = false
    ∧ (RadiusCredentials.Valid c now u p outcome).cache = c := by
  cases hc : c.load u with
  | none =>
    rcases hout with h | h <;> subst h <;> simp [RadiusCredentials.Valid, hc]
  | some item =>
    have hcond : (item.Password == p && !(c.isExpired now item)) = false := by
      have := hmiss
      simpa [cacheHit, hc] using this
    rcases hout with h | h <;> subst h <;> simp [RadiusCredentials.Valid, hc, hcond]

/-- Witness for C3: a reject for bob against a cache that only knows alice
returns false and leaves the one-entry cache intact. -/
theorem valid_reject_leaves_cache_unchanged_witness :
    (RadiusCredentials.Valid ⟨10, [("alice", ⟨"pw", 0⟩)]⟩ 5 "bob" "pw" RadiusOutcome.reject).ok = false
    ∧ (RadiusCredentials.Valid ⟨10, [("alice", ⟨"pw", 0⟩)]⟩ 5 "bob" "pw" RadiusOutcome.reject).cache
        = ⟨10, [("alice", ⟨"pw", 0⟩)]⟩ :=
  valid_reject_leaves_cache_unchanged ⟨10, [("alice", ⟨"pw", 0⟩)]⟩ 5 "bob" "pw"
    RadiusOutcome.reject (by decide) (Or.inl rfl)

/-- Claim C10: each `ConnWrapper` call bumps exactly its own counter by the
`n` bytes the underlying connection transferred, also when the call
reports an error, leaves the other counter and the wrapped connection
untouched and passes the underlying results through; consequently both
counters are non-decreasing along every sequence of calls. -/
theorem connWrapper_counters_accumulate (c : ConnWrapper) (n : Nat) (e : Bool)
    (evs : List ConnEvent) :
    ((c.read n e).1.ReadBytes = c.ReadBytes + n
      ∧ (c.read n e).1.WriteBytes = c.WriteBytes
      ∧ (c.read n e).1.Conn = c.Conn
      ∧ (c.read n e).2 = (n, e))
  ∧ ((c.write n e).1.WriteBytes = c.WriteBytes + n
      ∧ (c.write n e).1.ReadBytes = c.ReadBytes
      ∧ (c.write n e).1.Conn = c.Conn
      ∧ (c.write n e).2 = (n, e))
  ∧ (c.ReadBytes ≤ (c.run evs).ReadBytes ∧ c.WriteBytes ≤ (c.run evs).WriteBytes) := by
  refine ⟨⟨rfl, rfl, rfl, rfl⟩, ⟨rfl, rfl, rfl, rfl⟩, run_counters_mono evs c⟩

/-- Claim C1, counterexample: a completed session that relays 13 bytes
client-to-upstream and 27 bytes upstream-to-client, after a 12-byte
sub-negotiation, a 9-byte request and a 10-byte reply, is logged with
35 and 37 in the last two fields — not 13 and 27: the counters include
the negotiation bytes carried over the same wrapped connection. -/
theorem access_record_equals_relay_bytes_counterexample :
    (serveConnRecord "127.0.0.1:5000" "alice" "2024-01-01T00:00:00Z" "192.0.2.10:80"
        ⟨12, 9, 10, 13, 27⟩).readBytesField = 35
    ∧ (serveConnRecord "127.0.0.1:5000" "alice" "2024-01-01T00:00:00Z" "192.0.2.10:80"
        ⟨12, 9, 10, 13, 27⟩).writeBytesField = 37
    ∧ ¬ ((serveConnRecord "127.0.0.1:5000" "alice" "2024-01-01T00:00:00Z" "192.0.2.10:80"
          ⟨12, 9, 10, 13, 27⟩).readBytesField = 13
        ∧ (serveConnRecord "127.0.0.1:5000" "alice" "2024-01-01T00:00:00Z" "192.0.2.10:80"
          ⟨12, 9, 10, 13, 27⟩).writeBytesField = 27) := by
  refine ⟨by decide, by decide, ?_⟩
  intro h
  exact absurd h.1 (by decide)

/-- Claim C1, amended: the second-to-last field of the access record is
the relayed client-to-upstream bytes plus every byte read from the client
through the wrapped connection during negotiation (the version byte, the
sub-negotiation and the request), and the last field is the relayed
upstream-to-client bytes plus the SOCKS reply written through the
wrapper. -/
theorem access_record_counts_all_wrapper_traffic (remote username timeString destination : String)
    (t : SessionTrace) :
    (serveConnRecord remote username timeString destination t).readBytesField
        = 1 + t.authReadBytes + t.requestReadBytes + t.relayClientToUpstream
    ∧ (serveConnRecord remote username timeString destination t).writeBytesField
        = t.replyWriteBytes + t.relayUpstreamToClient := by
  simp [serveConnRecord, serveConnEvents, ConnWrapper.run, ConnWrapper.step,
    ConnWrapper.read, ConnWrapper.write]

/-- Claim C4: `ACL.Allow` accepts a request exactly when its command is
CONNECT and at least one prefix of the allow list contains the destination
IP, across both address families. -/
theorem acl_allow_iff (acl : List IPNet) (request : Request) :
    ACL.Allow acl request = true ↔
      (request.Command = SocksCommand.connect
        ∧ ∃ n ∈ acl, n.contains request.DestIP = true) := by
  by_cases h1 : request.Command = SocksCommand.connect
  · simp [ACL.Allow, h1, BasicNet.Permitted, List.any_eq_true]
  · have hb : (request.Command == SocksCommand.connect) = false := by
      simpa using h1
    simp [ACL.Allow, hb, h1]

theorem stats_get_add (st : Stats) (u : String) (v : Int) (w : String) :
    Stats.get (Stats.add st u v) w = Stats.get st w + (if u = w then v else 0) := by
  induction st with
  | nil =>
    by_cases h : u = w <;> simp [Stats.add, Stats.get, h]
  | cons kv rest ih =>
    obtain ⟨k, x⟩ := kv
    by_cases hku : k = u
    · by_cases hkw : k = w
      · have huw : u = w := hku.symm.trans hkw
        simp [Stats.add, Stats.get, hku, hkw, huw]
      · have huw : ¬ u = w := fun h => hkw (hku.trans h)
        simp [Stats.add, Stats.get, hku, hkw, huw]
    · by_cases hkw : k = w
      · have huw : ¬ u = w := fun h => hku (hkw.trans h.symm)
        have hwu : ¬ w = u := fun h => huw h.symm
        simp [Stats.add, Stats.get, hku, hkw, huw, hwu]
      · simp [Stats.add, Stats.get, hku, hkw, ih]

theorem get_parseLogLine (st : Stats) (line : String) (u : String) :
    Stats.get (parseLogLine st line) u = Stats.get st u + specLineBytes u line := by
  unfold parseLogLine specLineBytes
  generalize goFields line = fs
  rcases fs with _ | ⟨a, _ | ⟨b, _ | ⟨c, _ | ⟨i, _ | ⟨d, _ | ⟨e, _ | ⟨f6, _ | ⟨f7, _ | ⟨g, rest⟩⟩⟩⟩⟩⟩⟩⟩⟩ <;>
    try simp
  cases h6 : goAtoi f6 <;> cases h7 : goAtoi f7 <;>
    by_cases hid : i = u <;>
      simp [h6, h7, stats_get_add, hid]

theorem parse_foldl (lines : List String) (st : Stats) (u : String) :
    Stats.get (lines.foldl parseLogLine st) u
      = Stats.get st u + (lines.map (specLineBytes u)).sum := by
  induction lines generalizing st with
  | nil => simp
  | cons line rest ih =>
    simp only [List.foldl_cons, List.map_cons, List.sum_cons, ih, get_parseLogLine]
    ring

/-- Claim C5: for every username, the aggregate `parseLogFile` returns
maps the username to the sum, over the lines that have exactly 8
whitespace-separated fields whose 7th and 8th parse as integers and whose
4th field is that username, of field 7 plus field 8; every other line
contributes nothing. -/
theorem parseLogFile_aggregates_per_user (lines : List String) (u : String) :
    Stats.get (parseLogFile lines) u = (lines.map (specLineBytes u)).sum := by
  have h := parse_foldl lines [] u
  simpa [parseLogFile, Stats.get] using h

theorem compressFile_fresh (zstd : String → String) (fs : FSDir) (name content : String)
    (h1 : fs.get name = some content) (h2 : fs.get (name ++ ".zst") = none) :
    compressFile zstd fs name
      = ((FSDir.set fs (name ++ ".zst") (zstd content)).remove name, none) := by
  simp only [compressFile, h1, h2]
  simp

/-- Claim C6, counterexample: a directory that holds the dated archive
target and no rotated files at all makes the archival run return success
(it does nothing), not an error as the claim demands for every directory
state in which the target exists. -/
theorem archive_exists_fails_counterexample :
    fsOnlyArchive.get "archived-access-20240101.log.zst" = some "x"
    ∧ archiveLogs (fun s => s) fsOnlyArchive "20240101" maxBackups = (fsOnlyArchive, none) := by
  exact ⟨rfl, rfl⟩

/-- Claim C6, amended: when at least max_backups (24) rotated files are
present and the dated archive target already exists, the archival run
fails with an error and leaves the directory — in particular the existing
`.zst` — byte-for-byte unchanged; with fewer rotated files it does nothing
and reports success whether or not the target exists. -/
theorem archive_exists_fails (zstd : String → String) (fs : FSDir) (date z : String)
    (hz : fs.get (archiveName date ++ ".zst") = some z)
    (hge : maxBackups ≤ (findLogs fs).length) :
    (archiveLogs zstd fs date maxBackups).1 = fs
    ∧ (archiveLogs zstd fs date maxBackups).2
        = some ("file " ++ archiveName date ++ ".zst exists") := by
  simp only [archiveLogs]
  rw [if_pos hge, hz]
  simp

/-- Witness for C6: a directory with 24 rotated files and the dated target
present is rejected with the existence error and left untouched. -/
theorem archive_exists_fails_witness :
    (archiveLogs (fun s => s) fsFullWithArchive "20240101" maxBackups).1 = fsFullWithArchive
    ∧ (archiveLogs (fun s => s) fsFullWithArchive "20240101" maxBackups).2
        = some ("file " ++ archiveName "20240101" ++ ".zst exists") :=
  archive_exists_fails (fun s => s) fsFullWithArchive "20240101" "x" rfl (by decide)

/-- Claim C7: the code contradicts the claimed (and commented) cleanup
behavior.  On a run in which every step through compression succeeds, the
`os.Stat(archiveFilePath)` in the cleanup block reports not-exist (the
intermediate was removed by `compressFile`), so the branch that would
delete the source files is unreachable and the function returns the
`Unknown err` error instead: the archive `.zst` is produced, yet the run
reports failure and every rotated source file survives. -/
theorem archiveLogs_success_path_bug :
    (archiveLogs (fun s => s) fsFull "20240101" maxBackups).2
        = some "Unknown err when clear original log file"
    ∧ (∀ name ∈ findLogs fsFull,
        (archiveLogs (fun s => s) fsFull "20240101" maxBackups).1.get name = fsFull.get name)
    ∧ (archiveLogs (fun s => s) fsFull "20240101" maxBackups).1.get
          "archived-access-20240101.log.zst" = some "abcdefghijklmnopqrstuvwx" := by
  refine ⟨by decide, by decide, by decide⟩

/-- Claim C8: with fewer than max_backups (24) rotated files present the
archival run changes nothing on disk; with at least max_backups present
and no pre-existing dated target, the `.zst` archive it writes is the
compression of the concatenation of all the matching files taken in
nondecreasing lexicographic filename order (the sorted names being a
permutation of the matching names). -/
theorem archiveLogs_concatenates_sorted (zstd : String → String) (fs : FSDir) (date : String) :
    ((findLogs fs).length < maxBackups → (archiveLogs zstd fs date maxBackups).1 = fs)
  ∧ (maxBackups ≤ (findLogs fs).length →
      fs.get (archiveName date ++ ".zst") = none →
      List.Sorted (fun a b => strLe a b = true) (sortStrings (findLogs fs))
      ∧ (sortStrings (findLogs fs)).Perm (findLogs fs)
      ∧ (archiveLogs zstd fs date maxBackups).1.get (archiveName date ++ ".zst")
          = some (zstd (String.join ((sortStrings (findLogs fs)).map
              (fun n => (fs.get n).getD ""))))) := by
  constructor
  · intro hlt
    simp only [archiveLogs]
    rw [if_neg (by omega)]
  · intro hge habs
    refine ⟨List.sorted_insertionSort _ _, List.perm_insertionSort _ _, ?_⟩
    have hmem_ne : ∀ n ∈ sortStrings (findLogs fs), ¬ archiveName date = n := by
      intro n hn hEq
      have hn2 : n ∈ findLogs fs := (List.perm_insertionSort _ _).mem_iff.mp hn
      have hrot : isRotatedLogName n = true := (List.mem_filter.mp hn2).2
      rw [← hEq, isRotatedLogName_archiveName] at hrot
      exact Bool.false_ne_true hrot
    have hcontent : (sortStrings (findLogs fs)).map
        (fun n => ((FSDir.set fs (archiveName date) "").get n).getD "")
        = (sortStrings (findLogs fs)).map (fun n => (fs.get n).getD "") := by
      apply List.map_congr_left
      intro n hn
      rw [fsdir_get_set_ne fs (archiveName date) n "" (hmem_ne n hn)]
    simp only [archiveLogs]
    rw [if_pos hge, habs]
    simp only [Option.isSome_none, Bool.false_eq_true, if_false]
    have hc1 : (FSDir.set (FSDir.set fs (archiveName date) "") (archiveName date)
        (String.join ((sortStrings (findLogs fs)).map
          (fun n => ((FSDir.set fs (archiveName date) "").get n).getD "")))).get
        (archiveName date)
        = some (String.join ((sortStrings (findLogs fs)).map
          (fun n => ((FSDir.set fs (archiveName date) "").get n).getD ""))) :=
      fsdir_get_set_same _ _ _
    have hc2 : (FSDir.set (FSDir.set fs (archiveName date) "") (archiveName date)
        (String.join ((sortStrings (findLogs fs)).map
          (fun n => ((FSDir.set fs (archiveName date) "").get n).getD "")))).get
        (archiveName date ++ ".zst") = none := by
      rw [fsdir_get_set_ne _ _ _ _ (archiveName_ne_zst date),
        fsdir_get_set_ne _ _ _ _ (archiveName_ne_zst date)]
      exact habs
    rw [compressFile_fresh zstd _ (archiveName date) _ hc1 hc2]
    simp only
    rw [fsdir_get_remove_same]
    simp only [Option.isSome_none, Bool.false_eq_true, if_false]
    rw [fsdir_get_remove_ne _ _ _ (archiveName_ne_zst date), fsdir_get_set_same, hcontent]

/-- Witness for C8: the small directory leaves everything unchanged, and
the 24-file directory gets the lexicographically ordered concatenation
compressed into its dated archive. -/
theorem archiveLogs_concatenates_sorted_witness :
    (archiveLogs (fun s => s) fsOnlyArchive "20240101" maxBackups).1 = fsOnlyArchive
    ∧ (archiveLogs (fun s => s) fsFull "20240101" maxBackups).1.get
        (archiveName "20240101" ++ ".zst")
        = some ((fun s => s) (String.join ((sortStrings (findLogs fsFull)).map
            (fun n => (fsFull.get n).getD "")))) :=
  ⟨(archiveLogs_concatenates_sorted (fun s => s) fsOnlyArchive "20240101").1 (by decide),
    ((archiveLogs_concatenates_sorted (fun s => s) fsFull "20240101").2 (by decide)
      (by decide)).2.2⟩

/-- Claim C9, counterexample: a total of 2^32 bytes is emitted as
Acct-Output-Octets 0 in the Stop packet — the uint32 attribute truncates,
so the packet does not carry a value equal to total_bytes. -/
theorem accounting_output_octets_counterexample :
    ((sendAccountingData "ganted" "alice" 4294967296 1700000000
        ExchangeOutcome.response ExchangeOutcome.response).1.map
      (fun pkt => pkt.outputOctets)) = [none, some 0]
    ∧ (4294967296 : Int) ≠ 0 := by
  refine ⟨rfl, by norm_num⟩

/-- Claim C9, amended: whenever the emitter sends the Start/Stop pair for
a user, the two packets carry the identical Acct-Session-Id (the decimal
unix time computed once), and the Stop packet carries Acct-Output-Octets
equal to total_bytes reduced modulo 2^32 (the attribute is 32 bits
wide). -/
theorem accounting_pair_session_and_octets (nasId identity : String) (bytes nowUnix : Int)
    (so st : ExchangeOutcome) (p q : AccountingPacket)
    (h : (sendAccountingData nasId identity bytes nowUnix so st).1 = [p, q]) :
    p.sessionID = q.sessionID
    ∧ p.statusType = AcctStatusType.start
    ∧ q.statusType = AcctStatusType.stop
    ∧ q.outputOctets = some (uint32OfInt bytes)
    ∧ p.username = identity ∧ q.username = identity := by
  cases so with
  | error => simp [sendAccountingData] at h
  | otherCode => simp [sendAccountingData] at h
  | response =>
    cases st <;>
    · simp only [sendAccountingData, List.cons.injEq, and_true] at h
      obtain ⟨hp, hq⟩ := h
      subst hp
      subst hq
      exact ⟨rfl, rfl, rfl, rfl, rfl, rfl⟩

/-- Witness for C9 (amended): the aggregate pair for alice with 380 bytes
at unix time 1700000000 yields a Start and Stop with session id
`1700000000` and Stop octets 380. -/
theorem accounting_pair_session_and_octets_witness :
    witnessStartPacket.sessionID = witnessStopPacket.sessionID
    ∧ witnessStartPacket.statusType = AcctStatusType.start
    ∧ witnessStopPacket.statusType = AcctStatusType.stop
    ∧ witnessStopPacket.outputOctets = some (uint32OfInt 380)
    ∧ witnessStartPacket.username = "alice" ∧ witnessStopPacket.username = "alice" :=
  accounting_pair_session_and_octets "ganted" "alice" 380 1700000000
    ExchangeOutcome.response ExchangeOutcome.response witnessStartPacket witnessStopPacket
    (by decide)

end LightSocks5
